import Mathlib

/-!
Verification of the MinROS driver node (`minros_node.hpp` / `minros_node.cpp`)
against its natural-language specification.

The node's observable behaviour is shallowly embedded below:
* the connection-descriptor dispatch of `MinROSNode::InitializeIO` (the boost
  regex `(tcp|udp)://(.+):(\d+)` matched against the full `device_` string,
  and the branch taken for each outcome) as an effect-trace function;
* `MinROSNode::Reconnect` as a step function on the `connected_` flag paired
  with a record of whether `reconnect_timer_.stop()` was called;
* `MinROSNode::Subscribe` as the registry of handler registrations it makes;
* the templates `minros_node::checkRange` / `minros_node::GetROSInt` with the
  C++ integral conversion made explicit;
* the function-local-static `minros_node::publish` as a fold over calls.

The communication core (`io_comm_mosaic`: frame decoding, the callback
multimap) is declared and used by these files but its implementation is not
part of this repository snapshot; where a claim depends on it, the relevant
component is modelled from the specification and marked as such in its doc
comment.
-/

/-! ## Connection descriptor matching (`InitializeIO`, minros_node.cpp:68-109)

`boost::regex_match(device_, match, boost::regex("(tcp|udp)://(.+):(\\d+)"))`
succeeds iff the WHOLE string is `proto ++ "://" ++ host ++ ":" ++ port` with
`proto ∈ {tcp, udp}`, `host` nonempty, and `port` a nonempty run of digits.
Under boost's default flags (`match_default`, no `match_not_dot_newline`)
`.` matches every character, newline included, so `host` is unconstrained
beyond being nonempty. -/

/-- Whether the character list is a nonempty run of decimal digits
(the `(\d+)` group of the regex, anchored at the end of the string). -/
def digitsRun (cs : List Char) : Bool :=
  !cs.isEmpty && cs.all Char.isDigit

/-- Whether the character list is `':'` followed by a nonempty digit run. -/
def colonDigits : List Char → Bool
  | ':' :: rest => digitsRun rest
  | _ => false

/-- Whether the character list splits as `host ++ ':' :: port` with `host`
nonempty (any characters — boost's `.` matches newline too under
`match_default`) and `port` a nonempty digit run: the `(.+):(\d+)` part of
the regex (existence of any split; boost's greedy choice of split does not
affect which strings match, nor the proto group). -/
def hostColonPort : List Char → Bool
  | [] => false
  | _ :: rest => colonDigits rest || hostColonPort rest

/-- Strips a recognized `proto://` prefix, returning the proto token and the
remainder. The regex alternation `(tcp|udp)` recognizes exactly these two. -/
def protoOf : List Char → Option (String × List Char)
  | 't' :: 'c' :: 'p' :: ':' :: '/' :: '/' :: rest => some ("tcp", rest)
  | 'u' :: 'd' :: 'p' :: ':' :: '/' :: '/' :: rest => some ("udp", rest)
  | _ => none

/-- Full-string match of `(tcp|udp)://(.+):(\d+)` against the descriptor,
returning the proto sub-match (`match[1]` in the source) when it matches. -/
def regexMatchProto (device : String) : Option String :=
  match protoOf device.data with
  | some (proto, rest) => if hostColonPort rest then some proto else none
  | none => none

/-! ## `InitializeIO` as an effect trace (minros_node.cpp:68-109) -/

/-- The I/O side effects `InitializeIO` can perform. `timerCreate` and
`timerStart` correspond to the `nh->createTimer` / `reconnect_timer_.start()`
lines, which in the source are commented out; `initTCP` corresponds to the
`IO.InitializeTCP` line, also commented out. They are listed so that their
absence from every reachable trace is expressible. -/
inductive IOAction where
  | initSerial (dev : String) (baud : Nat)
  | initTCP (host : String) (portStr : String)
  | timerCreate
  | timerStart
  deriving DecidableEq, Repr

/-- `MinROSNode::InitializeIO` (minros_node.cpp:68-109): if the descriptor
fully matches `(tcp|udp)://(.+):(\d+)` then for proto `tcp` the body is
entirely commented out (no action), and for any other proto it throws
`std::runtime_error("Protocol '" + proto + "' is unsupported")`; otherwise
the descriptor is handed to `IO.InitializeSerial(device_, baudrate_)` as a
serial device path. The timer lines (cpp:100-102) are commented out and emit
nothing. An `Except.error` models the thrown exception. -/
def initializeIORun (device : String) (baudrate : Nat) :
    Except String (List IOAction) :=
  match regexMatchProto device with
  | some proto =>
      if proto = "tcp" then Except.ok []
      else Except.error ("Protocol " ++ proto ++ " is unsupported")
  | none => Except.ok [IOAction.initSerial device baudrate]

/-! ## `Reconnect` and the `connected_` flag (minros_node.cpp:111-124,
minros_node.hpp:276) -/

/-- Initial value of `MinROSNode::connected_` (hpp:276: `bool connected_ = false`). -/
def initialConnected : Bool := false

/-- `MinROSNode::Reconnect` (minros_node.cpp:111-124) as a function of the
incoming `connected_` flag and the result of `IO.InitializeSerial`: the first
`if` sets `connected_ = true` on success, the second `if` calls
`reconnect_timer_.stop()` iff `connected_ == true`. Returns the new
`connected_` value and whether `stop()` was called. -/
def Reconnect (connected : Bool) (serial_ok : Bool) : Bool × Bool :=
  let connected2 := if serial_ok then true else connected
  if connected2 = true then (connected2, true) else (connected2, false)

/-- Iterated invocations of `Reconnect`, threading `connected_` through a
sequence of `InitializeSerial` outcomes. -/
def reconRun : Bool → List Bool → Bool
  | c, [] => c
  | c, a :: rest => reconRun (Reconnect c a).1 rest

/-- State of the reconnect timer machinery: the `connected_` flag and whether
`reconnect_timer_` is currently running (a ROS timer whose callback fires only
while the timer runs, and which `stop()` halts). -/
structure TimerState where
  connected : Bool
  timer_running : Bool
  deriving DecidableEq, Repr

/-- One timer period: if the timer is running, the `Reconnect` callback fires
(second component `true`) and a `stop()` call inside it halts the timer;
if the timer is stopped, nothing happens. -/
def timerStep (st : TimerState) (serial_ok : Bool) : TimerState × Bool :=
  if st.timer_running then
    let r := Reconnect st.connected serial_ok
    (⟨r.1, if r.2 then false else st.timer_running⟩, true)
  else (st, false)

/-- Number of `Reconnect` callback invocations over a sequence of timer
periods with the given `InitializeSerial` outcomes. -/
def timerRunCount : TimerState → List Bool → Nat
  | _, [] => 0
  | st, a :: rest =>
      let s := timerStep st a
      (if s.2 then 1 else 0) + timerRunCount s.1 rest

/-! ## Callback registry (modelled from the spec) and `Subscribe`
(minros_node.cpp:126-140) -/

/-- Modelled from the spec: the `io_comm_mosaic` CallbackRegistry (the
`std::multimap<std::string, boost::shared_ptr<CallbackHandler>>` named
`callbacks_`, whose implementation file is not part of this snapshot).
Per the spec, it is a mapping from identifier to an ordered list of handler
entries; `insert(identifier, handler)` appends a handler for that identifier,
and `dispatch(identifier, payload)` invokes, in insertion order, every handler
registered for that identifier, passing each the same payload. -/
structure Registry (H : Type) where
  callbacks : List (String × H)
  deriving Repr

/-- The empty registry. -/
def Registry.empty {H : Type} : Registry H := ⟨[]⟩

/-- Modelled from the spec: `insert` appends a handler for the identifier
(additive, never overwriting). -/
def Registry.insert {H : Type} (r : Registry H) (id : String) (h : H) :
    Registry H :=
  ⟨r.callbacks ++ [(id, h)]⟩

/-- The handlers registered for an identifier, in registration order. -/
def Registry.handlersFor {H : Type} (r : Registry H) (id : String) : List H :=
  (r.callbacks.filter (fun e => e.1 == id)).map (fun e => e.2)

/-- `count(identifier)`: how many handlers are registered for it. -/
def Registry.count {H : Type} (r : Registry H) (id : String) : Nat :=
  (r.handlersFor id).length

/-- Modelled from the spec: `dispatch(identifier, payload)` invokes, in
insertion order, every handler registered for that identifier, passing each
the same payload. The result lists the invocations made. -/
def Registry.dispatch {H : Type} (r : Registry H) (id : String) (p : String) :
    List (H × String) :=
  (r.handlersFor id).map (fun h => (h, p))

/-- `MinROSNode::Subscribe` (minros_node.cpp:126-140): reads the parameter
`publish/gpgga` with default `true` (`nh->param("publish/gpgga",
publish_gpgga_, true)`); if it is true, inserts one handler for identifier
`"$GPGGA"` whose bound action is `publish<nmea_msgs::Gpgga>(_1, "/gpgga")` —
the handler is modelled by its bound destination name. The argument is the
parameter-server value, `none` when absent. -/
def Subscribe (publish_gpgga_param : Option Bool) : Registry String :=
  let publish_gpgga_ := publish_gpgga_param.getD true
  if publish_gpgga_ = true then Registry.empty.insert "$GPGGA" "/gpgga"
  else Registry.empty

/-! ## `checkRange` and `GetROSInt` (minros_node.hpp:143-207) -/

/-- `minros_node::checkRange` (hpp:143-153): throws `std::runtime_error` iff
`val < min || val > max`. All quantities are modelled as mathematical
integers carrying the values the C++ expressions denote. -/
def checkRange (val mn mx : Int) (name : String) : Except String Unit :=
  if val < mn ∨ val > mx then
    Except.error ("Invalid settings: " ++ name ++ " must be in range [" ++
      toString mn ++ ", " ++ toString mx ++ "].")
  else Except.ok ()

/-- The C++ conversion `(uint32_t) param` of a (32-bit) `int` value:
reduction modulo 2^32 into `[0, 2^32)`. -/
def castToU32 (param : Int) : Int := param % 4294967296

/-- The scalar `minros_node::GetROSInt<U>` (hpp:181-192) after
`nh->getParam(key, param)` has produced the int value `param`, for a target
type `U` described by its conversion function `cast` and its numeric limits
`lo = std::numeric_limits<U>::lowest()`, `hi = std::numeric_limits<U>::max()`:
the source range-checks `(U) param` — the value AFTER conversion to `U` —
against `U`'s own limits, then stores `u = (U) param`. -/
def GetROSInt_found (cast : Int → Int) (lo hi : Int) (key : String)
    (param : Int) : Except String Int :=
  match checkRange (cast param) lo hi key with
  | Except.error e => Except.error e
  | Except.ok _ => Except.ok (cast param)

/-! ## `publish` (minros_node.hpp:124-132) -/

/-- One call to `minros_node::publish<MessageT>(m, topic)` for a fixed
`MessageT`: the function-local `static ros::Publisher publisher =
nh->advertise<MessageT>(topic, ROSQueueSize)` is initialized exactly once,
on the first call, binding the publisher to THAT call's `topic`; every call
then publishes through `publisher`. The state is the topic the static
publisher was advertised on (`none` before the first call); the second
component is the topic the message is actually published to. -/
def publishCall (st : Option String) (topic : String) : Option String × String :=
  match st with
  | none => (some topic, topic)
  | some t0 => (some t0, t0)

/-- A sequence of `publish<MessageT>` calls (same `MessageT`), returning the
topics the messages were actually published to, in order. -/
def publishRun : Option String → List String → List String
  | _, [] => []
  | st, t :: rest =>
      let r := publishCall st t
      r.2 :: publishRun r.1 rest

/-! ## ASCII frame decoding (modelled from the spec)

The FrameDecoder lives in the `io_comm_mosaic` communication core, whose
implementation is not part of this repository snapshot; the ASCII branch is
modelled from the specification's words. -/

/-- A decoded message record, as the spec describes it (payload restricted to
the ASCII case; `payload` holds the bytes between `$` and `*`). -/
structure DecodedMessage where
  identifier : String
  payload : List Char
  valid : Bool
  deriving DecidableEq, Repr

/-- Modelled from the spec: the checksum is the cumulative exclusive-or of
all bytes between (exclusive) `$` and (exclusive) `*`. -/
def xorChecksum (body : List Char) : Nat :=
  body.foldl (fun a c => Nat.xor a c.toNat) 0

/-- An uppercase hexadecimal digit for a value below 16. -/
def hexDigitU (n : Nat) : Char :=
  if n < 10 then Char.ofNat (48 + n) else Char.ofNat (55 + n)

/-- Modelled from the spec: the checksum rendered as two uppercase hex
digits. -/
def renderChecksum (n : Nat) : List Char :=
  [hexDigitU (n / 16 % 16), hexDigitU (n % 16)]

/-- Splits a character list at the first `'*'`, returning the part before it
and the part after it. -/
def splitAtStar : List Char → Option (List Char × List Char)
  | [] => none
  | c :: rest =>
      if c = '*' then some ([], rest)
      else
        match splitAtStar rest with
        | some (pre, post) => some (c :: pre, post)
        | none => none

/-- Drops the line terminator (`\r\n` or `\n`) that ends an ASCII frame. -/
def stripTerminator (cs : List Char) : Option (List Char) :=
  match cs.reverse with
  | c :: rest =>
      if c = '\n' then
        match rest with
        | c2 :: rest2 => if c2 = '\r' then some rest2.reverse else some rest.reverse
        | [] => some []
      else none
  | [] => none

/-- Modelled from the spec: decoding one ASCII frame. A candidate frame
starts at a byte `$` and ends at a line terminator; the two bytes following
the `*` near the end are compared against the rendered exclusive-or checksum
of the bytes strictly between `$` and `*`; a mismatch yields the frame with
`valid = false` (the frame IS still yielded). The identifier is the token
immediately following `$` up to the first `,`. Frames without the expected
shape yield nothing. -/
def decodeAsciiFrame (frame : List Char) : Option DecodedMessage :=
  match frame with
  | [] => none
  | c :: rest =>
      if c ≠ '$' then none
      else
      match stripTerminator rest with
      | some content =>
          match splitAtStar content with
          | some (body, [c1, c2]) =>
              some { identifier := (body.takeWhile (fun c => c != ',')).asString
                     payload := body
                     valid := renderChecksum (xorChecksum body) == [c1, c2] }
          | _ => none
      | none => none

/-- Modelled from the spec: the Dispatcher invokes handlers only for valid
frames — it must not invoke handlers for invalid ones. Returns the handler
invocations made for the decoded message. -/
def dispatchMessage {H : Type} (r : Registry H) (m : DecodedMessage) :
    List (H × String) :=
  if m.valid then r.dispatch m.identifier m.payload.asString else []

/-! ## Theorems -/

/-- The regex alternation recognizes only the tokens `tcp` and `udp`. -/
lemma protoOf_tcp_or_udp {cs : List Char} {p : String} {rest : List Char}
    (h : protoOf cs = some (p, rest)) : p = "tcp" ∨ p = "udp" := by
  unfold protoOf at h
  split at h <;> simp_all

/-- A full regex match yields proto `tcp` or `udp` only. -/
lemma regexMatchProto_tcp_or_udp {device : String} {p : String}
    (h : regexMatchProto device = some p) : p = "tcp" ∨ p = "udp" := by
  unfold regexMatchProto at h
  cases hp : protoOf device.data with
  | none => rw [hp] at h; exact absurd h (by simp)
  | some pr =>
      obtain ⟨pr1, pr2⟩ := pr
      rw [hp] at h
      by_cases hh : hostColonPort pr2 = true
      · simp only [hh, if_true, Option.some.injEq] at h
        exact h ▸ protoOf_tcp_or_udp hp
      · simp [hh] at h

/-- C1: a connection descriptor `proto://host:port` whose recognized proto
token is not `tcp` (that is, `udp`) makes `InitializeIO` throw
`std::runtime_error` at startup, before any connection attempt: the run is an
error carrying no I/O actions, so no connect, retry, or timer activity
occurs. -/
theorem initializeIO_unsupported_proto_fatal (device : String) (baudrate : Nat)
    (proto : String) (h : regexMatchProto device = some proto)
    (hne : proto ≠ "tcp") :
    initializeIORun device baudrate =
      Except.error ("Protocol " ++ proto ++ " is unsupported") := by
  unfold initializeIORun
  rw [h]
  simp [hne]

/-- Witness for C1 at the concrete descriptor `udp://localhost:28784`. -/
theorem initializeIO_unsupported_proto_fatal_witness :
    regexMatchProto "udp://localhost:28784" = some "udp" ∧
    initializeIORun "udp://localhost:28784" 115200 =
      Except.error "Protocol udp is unsupported" :=
  ⟨by decide,
    initializeIO_unsupported_proto_fatal "udp://localhost:28784" 115200 "udp"
      (by decide) (by decide)⟩

/-- C3 (the code at the failing input): starting with a serial descriptor
whose `InitializeSerial` call fails, `InitializeIO` performs exactly one
`InitializeSerial` action and never creates or starts the reconnect timer —
the timer lines of minros_node.cpp:100-102 are commented out, so no retry
can ever fire. -/
theorem initializeIO_no_reconnect_timer :
    initializeIORun "/dev/ttyACM0" 115200 =
      Except.ok [IOAction.initSerial "/dev/ttyACM0" 115200] ∧
    IOAction.timerCreate ∉ [IOAction.initSerial "/dev/ttyACM0" 115200] ∧
    IOAction.timerStart ∉ [IOAction.initSerial "/dev/ttyACM0" 115200] := by
  refine ⟨rfl, by decide, by decide⟩

/-- C5 is refuted at the concrete descriptor `tcp://foo`: it is malformed
(a recognized proto token but no `:port` part, and not a serial device
path), yet `InitializeIO` raises no error at all — it falls into the `else`
branch and hands the whole string to `InitializeSerial` as a device path. -/
theorem initializeIO_malformed_not_rejected_cex :
    initializeIORun "tcp://foo" 115200 =
      Except.ok [IOAction.initSerial "tcp://foo" 115200] ∧
    ¬ ∃ e, initializeIORun "tcp://foo" 115200 = Except.error e := by
  refine ⟨rfl, ?_⟩
  rintro ⟨e, he⟩
  rw [show initializeIORun "tcp://foo" 115200 =
      Except.ok [IOAction.initSerial "tcp://foo" 115200] from rfl] at he
  exact Except.noConfusion he

/-- C5 (amended): a descriptor that does not fully match
`(tcp|udp)://(.+):(\d+)` is never rejected: malformed or not, it is treated
as a serial device path and passed to `InitializeSerial`; a fatal
configuration error arises only for full matches whose proto is not `tcp`. -/
theorem initializeIO_nonmatching_treated_as_serial (device : String)
    (baudrate : Nat) (h : regexMatchProto device = none) :
    initializeIORun device baudrate =
      Except.ok [IOAction.initSerial device baudrate] := by
  unfold initializeIORun
  rw [h]

/-- Witness for the amended C5 at the concrete descriptor `udp://nohost`
(malformed: recognized proto token, no port). -/
theorem initializeIO_nonmatching_treated_as_serial_witness :
    regexMatchProto "udp://nohost" = none ∧
    initializeIORun "udp://nohost" 115200 =
      Except.ok [IOAction.initSerial "udp://nohost" 115200] :=
  ⟨by decide,
    initializeIO_nonmatching_treated_as_serial "udp://nohost" 115200 (by decide)⟩

/-- A stopped timer never invokes its callback again. -/
lemma timerRunCount_stopped (st : TimerState) (l : List Bool)
    (h : st.timer_running = false) : timerRunCount st l = 0 := by
  induction l with
  | nil => rfl
  | cons a rest ih =>
      simp only [timerRunCount, timerStep, h, Bool.false_eq_true, if_false]
      simpa using ih

/-- C4: when the `InitializeSerial` attempt inside the `Reconnect` timer
callback succeeds, `reconnect_timer_.stop()` is called, the timer is left
stopped, and no further `Reconnect` invocations fire afterwards, whatever
the later attempt outcomes would have been. -/
theorem reconnect_success_stops_timer (c : Bool) (rest : List Bool) :
    (Reconnect c true).2 = true ∧
    (timerStep ⟨c, true⟩ true).1.timer_running = false ∧
    timerRunCount (timerStep ⟨c, true⟩ true).1 rest = 0 := by
  have hrec : Reconnect c true = (true, true) := by simp [Reconnect]
  refine ⟨by rw [hrec], ?_, ?_⟩
  · simp [timerStep, hrec]
  · exact timerRunCount_stopped _ _ (by simp [timerStep, hrec])

/-- Once `connected_` is true, `Reconnect` keeps it true. -/
lemma reconnect_keeps_connected (a : Bool) : (Reconnect true a).1 = true := by
  cases a <;> rfl

/-- Once `connected_` is true it stays true over any run. -/
lemma reconRun_of_connected (l : List Bool) : reconRun true l = true := by
  induction l with
  | nil => rfl
  | cons a rest ih => simp only [reconRun, reconnect_keeps_connected]; exact ih

/-- Runs compose by appending the attempt sequences. -/
lemma reconRun_append (c : Bool) (l1 l2 : List Bool) :
    reconRun c (l1 ++ l2) = reconRun (reconRun c l1) l2 := by
  induction l1 generalizing c with
  | nil => rfl
  | cons a rest ih => simp only [List.cons_append, reconRun]; exact ih _

/-- A run containing a successful attempt ends connected. -/
lemma reconRun_of_success (c : Bool) (l : List Bool)
    (h : l.any (fun b => b) = true) : reconRun c l = true := by
  induction l generalizing c with
  | nil => simp [List.any] at h
  | cons a rest ih =>
      cases a with
      | true =>
          have : (Reconnect c true).1 = true := by simp [Reconnect]
          simp only [reconRun, this]
          exact reconRun_of_connected rest
      | false =>
          simp only [List.any_cons, Bool.false_or] at h
          exact ih _ h

/-- C8: `connected_` starts false (hpp:276), a `Reconnect` invocation sets it
true exactly when its attempt succeeds, a true value is never reset, and
consequently once any past attempt has succeeded, every later invocation of
the callback calls `reconnect_timer_.stop()` regardless of its own attempt's
outcome. -/
theorem connected_flag_monotone (past mid : List Bool) (a : Bool)
    (h : past.any (fun b => b) = true) :
    initialConnected = false ∧
    (∀ x, (Reconnect false x).1 = x) ∧
    (∀ x, (Reconnect true x).1 = true) ∧
    reconRun initialConnected (past ++ mid) = true ∧
    (Reconnect (reconRun initialConnected (past ++ mid)) a).2 = true := by
  have hpast : reconRun initialConnected (past ++ mid) = true := by
    rw [reconRun_append, reconRun_of_success _ _ h]
    exact reconRun_of_connected mid
  refine ⟨rfl, fun x => by cases x <;> rfl, reconnect_keeps_connected,
    hpast, ?_⟩
  rw [hpast]
  cases a <;> rfl

/-- Witness for C8: one successful attempt, then a failing invocation that
still stops the timer. -/
theorem connected_flag_monotone_witness :
    [true].any (fun b => b) = true ∧
    (reconRun initialConnected ([true] ++ [false]) = true ∧
      (Reconnect (reconRun initialConnected ([true] ++ [false])) false).2 = true) :=
  ⟨by decide,
    ⟨(connected_flag_monotone [true] [false] false (by decide)).2.2.2.1,
     (connected_flag_monotone [true] [false] false (by decide)).2.2.2.2⟩⟩

/-- Inserting under one identifier appends to that identifier's handler list
and leaves every other identifier's list unchanged. -/
lemma handlersFor_insert {H : Type} (r : Registry H) (id id2 : String)
    (h : H) :
    (r.insert id h).handlersFor id2 =
      r.handlersFor id2 ++ (if id == id2 then [h] else []) := by
  by_cases heq : id == id2 <;>
    simp_all [Registry.insert, Registry.handlersFor, List.filter_append]

/-- C2: registering is additive fan-out. Starting from any registry, after
`n` insert calls for one identifier all `n` new handlers are retained after
any handlers already present, and dispatching one message for that identifier
invokes every registered handler exactly once, in registration order, each
with the same payload. -/
theorem registry_insert_fanout {H : Type} (r0 : Registry H) (id : String)
    (hs : List H) (p : String) :
    (hs.foldl (fun r h => r.insert id h) r0).handlersFor id
      = r0.handlersFor id ++ hs ∧
    (hs.foldl (fun r h => r.insert id h) r0).count id
      = r0.count id + hs.length ∧
    (hs.foldl (fun r h => r.insert id h) r0).dispatch id p
      = (r0.handlersFor id ++ hs).map (fun h => (h, p)) := by
  have key : ∀ (hs : List H) (r : Registry H),
      (hs.foldl (fun r h => r.insert id h) r).handlersFor id
        = r.handlersFor id ++ hs := by
    intro hs
    induction hs with
    | nil => intro r; simp
    | cons h rest ih =>
        intro r
        simp only [List.foldl_cons, ih, handlersFor_insert, beq_self_eq_true,
          if_true, List.append_assoc, List.singleton_append]
  refine ⟨key hs r0, ?_, ?_⟩
  · simp [Registry.count, key hs r0]
  · simp [Registry.dispatch, key hs r0]

/-- C6: `Subscribe` registers, when the `publish/gpgga` parameter is true or
absent (its default is true), exactly one handler under the identifier
`"$GPGGA"`, bound to the single destination `"/gpgga"`; when the parameter is
false, no handler is registered for that identifier. -/
theorem subscribe_gpgga_registration (p : Option Bool) :
    ((p = none ∨ p = some true) →
      (Subscribe p).handlersFor "$GPGGA" = ["/gpgga"] ∧
      (Subscribe p).count "$GPGGA" = 1) ∧
    (p = some false → (Subscribe p).handlersFor "$GPGGA" = []) := by
  constructor
  · rintro (rfl | rfl) <;> exact ⟨by decide, by decide⟩
  · rintro rfl; decide

/-- Witness for C6 at the default (absent) parameter. -/
theorem subscribe_gpgga_registration_witness :
    (Subscribe none).handlersFor "$GPGGA" = ["/gpgga"] ∧
    (Subscribe none).count "$GPGGA" = 1 :=
  (subscribe_gpgga_registration none).1 (Or.inl rfl)

/-- `splitAtStar` splits exactly at the first `'*'`. -/
lemma splitAtStar_no_star {body rest : List Char} (h : '*' ∉ body) :
    splitAtStar (body ++ '*' :: rest) = some (body, rest) := by
  induction body with
  | nil => simp [splitAtStar]
  | cons c bs ih =>
      have hc : c ≠ '*' := fun hh => h (hh ▸ List.mem_cons_self c bs)
      have hb : '*' ∉ bs := fun hh => h (List.mem_cons_of_mem c hh)
      simp only [List.cons_append, splitAtStar, if_neg hc, List.append_eq,
        ih hb]

/-- Stripping a `\r\n` terminator. -/
lemma stripTerminator_crlf (cs : List Char) :
    stripTerminator (cs ++ ['\r', '\n']) = some cs := by
  simp [stripTerminator, List.reverse_append]

/-- Stripping a bare `\n` terminator (the byte before it not being `\r`). -/
lemma stripTerminator_lf (cs : List Char) (c : Char) (hc : c ≠ '\r') :
    stripTerminator ((cs ++ [c]) ++ ['\n']) = some (cs ++ [c]) := by
  simp [stripTerminator, List.reverse_append, hc]

/-- Stripping the terminator of a checksum-carrying frame tail. -/
lemma stripTerminator_frame (body : List Char) (c1 c2 : Char)
    (term : List Char)
    (hterm : term = ['\r', '\n'] ∨ (term = ['\n'] ∧ c2 ≠ '\r')) :
    stripTerminator (body ++ '*' :: c1 :: c2 :: term) =
      some (body ++ ['*', c1, c2]) := by
  rcases hterm with rfl | ⟨rfl, hc⟩
  · have h := stripTerminator_crlf (body ++ ['*', c1, c2])
    simpa [List.append_assoc] using h
  · have h := stripTerminator_lf (body ++ ['*', c1]) c2 hc
    simpa [List.append_assoc] using h

/-- C7 (modelled from the spec): an ASCII frame from `$` to a line
terminator whose rendered exclusive-or checksum (over the bytes strictly
between `$` and `*`, two uppercase hex digits) differs from the two bytes
following `*` decodes to a yielded message with `valid = false`, and the
Dispatcher invokes no handler for it, whatever the registry holds. -/
theorem ascii_bad_checksum_not_dispatched {H : Type} (reg : Registry H)
    (body : List Char) (c1 c2 : Char) (term : List Char)
    (hstar : '*' ∉ body)
    (hterm : term = ['\r', '\n'] ∨ (term = ['\n'] ∧ c2 ≠ '\r'))
    (hmis : renderChecksum (xorChecksum body) ≠ [c1, c2]) :
    ∃ m, decodeAsciiFrame ('$' :: (body ++ '*' :: c1 :: c2 :: term)) = some m ∧
      m.valid = false ∧ dispatchMessage reg m = [] := by
  have hval : (renderChecksum (xorChecksum body) == [c1, c2]) = false :=
    beq_eq_false_iff_ne.mpr hmis
  refine ⟨{ identifier := (body.takeWhile (fun c => c != ',')).asString
            payload := body
            valid := renderChecksum (xorChecksum body) == [c1, c2] },
    ?_, hval, ?_⟩
  · simp only [decodeAsciiFrame, stripTerminator_frame body c1 c2 term hterm,
      splitAtStar_no_star hstar]
    simp
  · simp [dispatchMessage, hval]

/-- Witness for C7: the frame `$GPGGA,1*00\r\n` (true checksum `4B`). -/
theorem ascii_bad_checksum_not_dispatched_witness :
    renderChecksum (xorChecksum "GPGGA,1".data) ≠ ['0', '0'] ∧
    (∃ m,
      decodeAsciiFrame
          ('$' :: ("GPGGA,1".data ++ '*' :: '0' :: '0' :: ['\r', '\n'])) =
        some m ∧
      m.valid = false ∧
      dispatchMessage (Registry.empty.insert "$GPGGA" "/gpgga") m = []) :=
  ⟨by decide,
    ascii_bad_checksum_not_dispatched (Registry.empty.insert "$GPGGA" "/gpgga")
      "GPGGA,1".data '0' '0' ['\r', '\n'] (by decide) (Or.inl rfl) (by decide)⟩

/-- C9: the scalar `GetROSInt` range check compares `(U) param` — the value
AFTER conversion into `U` — against `U`'s own numeric limits, so whenever the
conversion lands inside those limits (as every C++ integral conversion into a
32-bit-or-wider `U` does for a 32-bit `int` source), the check cannot fail
and `GetROSInt` never throws: it accepts the converted value. -/
theorem getROSInt_range_check_vacuous (cast : Int → Int) (lo hi : Int)
    (hcast : ∀ x, lo ≤ cast x ∧ cast x ≤ hi) (key : String) (param : Int) :
    GetROSInt_found cast lo hi key param = Except.ok (cast param) := by
  obtain ⟨h1, h2⟩ := hcast param
  unfold GetROSInt_found checkRange
  rw [if_neg (by omega)]

/-- Witness for C9: `U = uint32_t` (the `serial/baudrate` instantiation) at
the out-of-range configured value `-1`, which is wrapped modulo `2^32` to
`4294967295` and accepted, not rejected. -/
theorem getROSInt_range_check_vacuous_witness :
    GetROSInt_found castToU32 0 4294967295 "serial/baudrate" (-1) =
      Except.ok 4294967295 := by
  have h := getROSInt_range_check_vacuous castToU32 0 4294967295
    (fun x => by
      unfold castToU32
      refine ⟨Int.emod_nonneg x (by norm_num), ?_⟩
      have hlt := Int.emod_lt_of_pos x (show (0 : Int) < 4294967296 by norm_num)
      omega)
    "serial/baudrate" (-1)
  rw [h]
  have hv : castToU32 (-1) = 4294967295 := by decide
  rw [hv]

/-- Once the static publisher is bound to a topic, every call publishes
there. -/
lemma publishRun_bound (t0 : String) (l : List String) :
    publishRun (some t0) l = l.map (fun _ => t0) := by
  induction l with
  | nil => rfl
  | cons t rest ih => simp [publishRun, publishCall, ih]

/-- C10: for a fixed message type, the first `publish` call binds the
function-local static publisher to its own topic argument, and every call in
the sequence — whatever topic argument it passes — actually publishes to that
first topic, so a second destination name for the same message type is never
served. -/
theorem publish_first_topic_wins (t0 : String) (rest : List String) :
    publishRun none (t0 :: rest) = t0 :: rest.map (fun _ => t0) := by
  simp only [publishRun, publishCall]
  exact congrArg _ (publishRun_bound t0 rest)
